import Mathlib

/-!
Verification of the Excel table-extraction engine of `src/main.py`.

The engine is embedded shallowly: pandas cell values become the inductive
type `Cell`, sheet grids become `List (List Cell)`, the registry (a Python
dict from table name to DataFrame) becomes an insertion-ordered association
list, and the Python methods of `ExcelProcessor` become the Lean functions
below, translated clause by clause from the source.  Machine floats are
idealized as exact rationals; none of the properties proved here depend on
float rounding or on the exact decimal rendering of a number.
-/

/-- A spreadsheet cell as pandas hands it to the engine: absent (NaN/None),
a native number, or a text string. -/
inductive Cell where
  | absent : Cell
  | num : ℚ → Cell
  | text : String → Cell
  deriving DecidableEq

abbrev Row := List Cell

/-- The table registry: Python dict from table name to the table's rows,
modelled as an insertion-ordered association list. -/
abbrev Registry := List (String × List Row)

/-- Model of `pd.notna` on a single cell. -/
def cellNotna : Cell → Bool
  | Cell.absent => false
  | _ => true

/-- Python `str()` of a cell value, as used by main.py when rendering rows and
labels.  `str` of NaN is `"nan"` (in main.py every use of `str` on a cell is
guarded by `pd.notna`, so this branch is never reached); the decimal rendering
of a number approximates Python's float repr — no claim settled in this file
depends on the digits of a numeric rendering. -/
def cellStr : Cell → String
  | Cell.absent => "nan"
  | Cell.num q => if q.den = 1 then toString q.num ++ ".0" else toString q
  | Cell.text s => s

/-- Python `str.strip()`: remove leading and trailing whitespace. -/
def pyStrip (s : String) : String :=
  String.mk (((s.toList.dropWhile Char.isWhitespace).reverse.dropWhile
    Char.isWhitespace).reverse)

/-- Python `str.lower()`. -/
def pyLower (s : String) : String := String.mk (s.toList.map Char.toLower)

def listStartsWith : List Char → List Char → Bool
  | [], _ => true
  | _ :: _, [] => false
  | p :: ps, c :: cs => p == c && listStartsWith ps cs

def containsSubAux (pat : List Char) : List Char → Bool
  | [] => pat.isEmpty
  | c :: cs => listStartsWith pat (c :: cs) || containsSubAux pat cs

/-- Python substring containment: `pat in s`. -/
def strContainsSub (s pat : String) : Bool := containsSubAux pat.toList s.toList

def tokenCountAux : List Char → Bool → Nat → Nat
  | [], _, n => n
  | c :: cs, inTok, n =>
    if c.isWhitespace then tokenCountAux cs false n
    else tokenCountAux cs true (if inTok then n else n + 1)

/-- Python `len(text.split())`: the number of maximal whitespace-free runs. -/
def tokenCount (s : String) : Nat := tokenCountAux s.toList false 0

/-- The fixed keyword list of `_is_potential_table_header` (main.py:105-108). -/
def header_keywords : List String :=
  ["investment", "revenue", "expense", "projection", "cash flow",
   "initial", "operating", "capital", "budget", "financial"]

/-- `ExcelProcessor._is_potential_table_header` (main.py:99-121): false for
blank text; true on a keyword hit in the lower-cased text; otherwise true for
short descriptive text (at most 5 tokens and more than 5 characters). -/
def is_potential_table_header (text : String) : Bool :=
  if pyStrip text == "" then false
  else if header_keywords.any (fun k => strContainsSub (pyLower text) k) then true
  else if tokenCount text ≤ 5 ∧ text.length > 5 then true
  else false

/-- Model of `row.isna().all()`: every cell of the row is absent. -/
def rowAllAbsent (r : Row) : Bool := r.all (fun c => !cellNotna c)

/-- Model of `' '.join([str(cell) for cell in row.dropna()])` (main.py:67). -/
def renderRow (r : Row) : String :=
  String.intercalate " " ((r.filter cellNotna).map cellStr)

/-- Python dict insertion `tables[name] = rows`: an existing key keeps its
position and gets the new value, a new key is appended. -/
def dictInsert (k : String) (v : List Row) (d : Registry) : Registry :=
  if d.any (fun p => p.1 == k) then
    d.map (fun p => if p.1 == k then (k, v) else p)
  else d ++ [(k, v)]

/-- Python dict lookup `tables[name]` guarded by `name in tables`. -/
def lookupTable (d : Registry) (k : String) : Option (List Row) :=
  (d.find? (fun p => p.1 == k)).map (fun p => p.2)

/-- Python truthiness of the optional `current_table_name` string: `None` and
the empty string are falsy. -/
def nameTruthy : Option String → Bool
  | none => false
  | some n => n != ""

/-- The commit step of the scan (main.py:72-74 and 85-87): `if
current_table_name and current_table_data:` — Python truthiness on both the
optional name string and the accumulated row list. -/
def commitCurrent (nm : Option String) (acc : List Row) (res : Registry) :
    Registry :=
  match nm with
  | some n => if n != "" && !acc.isEmpty then dictInsert n acc res else res
  | none => res

/-- The scan loop of `ExcelProcessor._extract_tables_from_sheet`
(main.py:61-87): a single top-to-bottom pass maintaining the current table
name, the accumulated data rows, and the tables committed so far. -/
def extract_scan : List Row → Option String → List Row → Registry → Registry
  | [], nm, acc, res => commitCurrent nm acc res
  | r :: rs, nm, acc, res =>
    if is_potential_table_header (renderRow r) then
      extract_scan rs (some (pyStrip (renderRow r))) [] (commitCurrent nm acc res)
    else if nameTruthy nm && !rowAllAbsent r then
      extract_scan rs nm (acc ++ [r]) res
    else
      extract_scan rs nm acc res

/-- `ExcelProcessor._extract_tables_from_sheet` (main.py:53-97): the scan,
then the fallback that treats the whole sheet as one table when the scan
found none and some row is not entirely absent. -/
def extract_tables_from_sheet (grid : List Row) (sheet_name : String) :
    Registry :=
  let tables := extract_scan grid none [] []
  if tables.isEmpty then
    (let non_empty_rows := grid.filter (fun r => !rowAllAbsent r)
     if !non_empty_rows.isEmpty then [(sheet_name ++ "_data", non_empty_rows)]
     else [])
  else tables

def digitsToNat : List Char → Nat → Nat
  | [], acc => acc
  | c :: cs, acc => digitsToNat cs (10 * acc + (c.toNat - 48))

/-- Model of Python `float()` on the post-strip alphabet (digits, dots and
minus signs only): an optional leading minus, then either a non-empty digit
run, or digits around a single dot with at least one digit present.  Any
other arrangement (extra minus signs, a second dot, no digits) raises
ValueError, modelled as `none`.  Float magnitude limits are idealized away:
values are exact rationals. -/
def pyFloatOfCleaned (s : String) : Option ℚ :=
  let l := s.toList
  let neg := listStartsWith ['-'] l
  let t := if neg then l.drop 1 else l
  let intPart := t.takeWhile (fun c => c != '.')
  let dotRest := t.dropWhile (fun c => c != '.')
  match dotRest with
  | [] =>
    if !intPart.isEmpty && intPart.all Char.isDigit then
      some (if neg then -((digitsToNat intPart 0 : ℕ) : ℚ)
            else ((digitsToNat intPart 0 : ℕ) : ℚ))
    else none
  | _ :: fracPart =>
    if (!intPart.isEmpty || !fracPart.isEmpty) && intPart.all Char.isDigit
        && fracPart.all Char.isDigit then
      some (if neg then
              -(((digitsToNat intPart 0 : ℕ) : ℚ)
                + ((digitsToNat fracPart 0 : ℕ) : ℚ) / ((10 : ℚ) ^ fracPart.length))
            else
              ((digitsToNat intPart 0 : ℕ) : ℚ)
                + ((digitsToNat fracPart 0 : ℕ) : ℚ) / ((10 : ℚ) ^ fracPart.length))
    else none

/-- The character strip of main.py:181: `re.sub(r'[^\d.-]', '', value)` keeps
exactly the digits, dots and minus signs. -/
def stripNonNumeric (s : String) : String :=
  String.mk (s.toList.filter (fun c => c.isDigit || c == '.' || c == '-'))

/-- `ExcelProcessor._extract_numeric_value` (main.py:174-188): native numbers
pass through; text is stripped to the numeric alphabet and parsed when the
remainder is non-empty; everything else (including absent cells) yields
`none`. -/
def extract_numeric_value : Cell → Option ℚ
  | Cell.num q => some q
  | Cell.text s =>
    (let cleaned := stripNonNumeric s
     if cleaned != "" then pyFloatOfCleaned cleaned else none)
  | Cell.absent => none

/-- The error taxonomy visible to HTTP handlers: 500 "not initialized"
(ServiceUnavailable), and the two 404 ValueError messages of main.py
(table not found, row not found). -/
inductive QueryError where
  | serviceUnavailable : QueryError
  | tableNotFound : String → QueryError
  | rowNotFound : String → String → QueryError
  deriving DecidableEq

/-- One iteration of the label-collection loop of main.py:140-142. -/
def rowNamesStep (row_names : List String) (r : Row) : List String :=
  let value := r.headD Cell.absent
  if cellNotna value && (pyStrip (cellStr value) != "") then
    row_names ++ [pyStrip (cellStr value)]
  else row_names

/-- `ExcelProcessor.get_table_row_names` (main.py:127-144). -/
def get_table_row_names (tables : Registry) (table_name : String) :
    Except QueryError (List String) :=
  match lookupTable tables table_name with
  | none => Except.error (QueryError.tableNotFound table_name)
  | some t => Except.ok (t.foldl rowNamesStep [])

/-- The row-match test of main.py:156: first cell non-absent and its trimmed
string form equal (case-sensitively) to the requested row name. -/
def rowMatchesLabel (row_name : String) (r : Row) : Bool :=
  let v := r.headD Cell.absent
  cellNotna v && (pyStrip (cellStr v) == row_name)

/-- One iteration of the summing loop of main.py:164-170: non-absent cells
that coerce to a number are added, everything else is skipped. -/
def sumCellValue (acc : ℚ) (c : Cell) : ℚ :=
  if cellNotna c then
    match extract_numeric_value c with
    | some q => acc + q
    | none => acc
  else acc

/-- `ExcelProcessor.calculate_row_sum` (main.py:146-172). -/
def calculate_row_sum (tables : Registry) (table_name row_name : String) :
    Except QueryError ℚ :=
  match lookupTable tables table_name with
  | none => Except.error (QueryError.tableNotFound table_name)
  | some t =>
    match t.find? (rowMatchesLabel row_name) with
    | none => Except.error (QueryError.rowNotFound table_name row_name)
    | some target_row => Except.ok (target_row.tail.foldl sumCellValue 0)

/-- The state held by `ExcelProcessor` after loading, as the queries see it. -/
structure Processor where
  tables : Registry
  deriving DecidableEq

/-- Model of `initialize_processor` (main.py:193-202), parameterized by the
outcome of the external file load.  The Python code assigns the global
`processor` the freshly constructed `ExcelProcessor` BEFORE
`load_excel_file()` runs; a load failure is caught after that assignment,
so the global keeps pointing at the processor, whose registry is still the
empty dict set by the constructor. -/
def initProcessor (load_result : Except String Registry) : Option Processor :=
  match load_result with
  | Except.ok tbls => some { tables := tbls }
  | Except.error _ => some { tables := [] }

/-- The `/list_tables` handler (main.py:224-236): 500 "not initialized" when
the global processor is unset, otherwise the registry's key list. -/
def list_tables_endpoint : Option Processor → Except QueryError (List String)
  | none => Except.error QueryError.serviceUnavailable
  | some p => Except.ok (p.tables.map (fun t => t.1))

/-- The `/get_table_details` handler (main.py:238-255). -/
def get_table_details_endpoint (st : Option Processor) (table_name : String) :
    Except QueryError (List String) :=
  match st with
  | none => Except.error QueryError.serviceUnavailable
  | some p => get_table_row_names p.tables table_name

/-- The `/row_sum` handler (main.py:257-278). -/
def row_sum_endpoint (st : Option Processor) (table_name row_name : String) :
    Except QueryError ℚ :=
  match st with
  | none => Except.error QueryError.serviceUnavailable
  | some p => calculate_row_sum p.tables table_name row_name

/-- The commit step exactly as the spec words it (§4.1 step 2b/3): commit
when `currentName` is set and `currentRows` is non-empty, overwriting any
prior table of the same name. -/
def specCommit (nm : Option String) (acc : List Row) (res : Registry) :
    Registry :=
  match nm with
  | some n => if !acc.isEmpty then dictInsert n acc res else res
  | none => res

/-- The segmenter scan exactly as the spec words it (§4.1 steps 1-3), for
comparison with the code's `extract_scan`: on a header candidate, commit the
accumulated table under the non-empty conditions and restart with the trimmed
rendered row as the new name; otherwise append the unmodified row when a name
is set and the row is not entirely absent; after the scan, a final commit
under the same conditions. -/
def specScan : List Row → Option String → List Row → Registry → Registry
  | [], currentName, currentRows, res => specCommit currentName currentRows res
  | r :: rs, currentName, currentRows, res =>
    if is_potential_table_header (renderRow r) then
      specScan rs (some (pyStrip (renderRow r))) []
        (specCommit currentName currentRows res)
    else if currentName.isSome && !rowAllAbsent r then
      specScan rs currentName (currentRows ++ [r]) res
    else
      specScan rs currentName currentRows res

/-- The label of a data row as `listRowLabels` reports it: the trimmed string
form of the first cell, or nothing when the first cell is absent (ragged rows
count as absent-padded) or trims to the empty string. -/
def rowLabel? (r : Row) : Option String :=
  let v := r.headD Cell.absent
  if cellNotna v && (pyStrip (cellStr v) != "") then some (pyStrip (cellStr v))
  else none

/-- The contribution of one cell to a row sum: its coerced value, or zero when
it is absent or non-coercible. -/
def coerceOrZero (c : Cell) : ℚ := (extract_numeric_value c).getD 0

/-- The worked registry of spec §8: one table whose single data row is
`["Initial Investment", 1000, "$2,000", "abc", None, "15%"]`. -/
def exampleRegistry : Registry :=
  [("CapBudg",
    [[Cell.text "Initial Investment", Cell.num 1000, Cell.text "$2,000",
      Cell.text "abc", Cell.absent, Cell.text "15%"]])]

/-- A registry whose only row has no coercible cell after the label. -/
def noNumericRegistry : Registry :=
  [("T2", [[Cell.text "lbl", Cell.text "abc", Cell.absent]])]

/-- A one-table registry used to instantiate query lemmas. -/
def witnessRegistry : Registry := [("T", [[Cell.text "a", Cell.num 1]])]

lemma foldl_rowNamesStep (t : List Row) (acc : List String) :
    t.foldl rowNamesStep acc = acc ++ t.filterMap rowLabel? := by
  induction t generalizing acc with
  | nil => simp
  | cons r rs ih =>
    rw [List.foldl_cons, ih, List.filterMap_cons]
    simp only [rowNamesStep, rowLabel?]
    by_cases hc : (cellNotna (r.headD Cell.absent)
        && (pyStrip (cellStr (r.headD Cell.absent)) != "")) = true
    · rw [if_pos hc, if_pos hc]
      simp
    · rw [if_neg hc, if_neg hc]

lemma foldl_sumCellValue (l : List Cell) (acc : ℚ) :
    l.foldl sumCellValue acc = acc + (l.map coerceOrZero).sum := by
  induction l generalizing acc with
  | nil => simp
  | cons c cs ih =>
    rw [List.foldl_cons, ih, List.map_cons, List.sum_cons]
    have hstep : sumCellValue acc c = acc + coerceOrZero c := by
      cases c with
      | absent => simp [sumCellValue, coerceOrZero, cellNotna, extract_numeric_value]
      | num q => simp [sumCellValue, coerceOrZero, cellNotna, extract_numeric_value]
      | text s =>
        cases h : extract_numeric_value (Cell.text s) with
        | none => simp [sumCellValue, coerceOrZero, cellNotna, h]
        | some q => simp [sumCellValue, coerceOrZero, cellNotna, h]
    rw [hstep]
    ring

/-- C2: the header-candidate predicate is false on blank or whitespace-only
text, true on any hit from the fixed keyword set in the lower-cased text, and
otherwise true exactly when the text has at most 5 whitespace-separated tokens
and strictly more than 5 characters; in particular it accepts
"Cash Flow Summary", rejects "Q1 Q2 Q3 Q4 Q5 Q6", and rejects "". -/
theorem header_candidate_spec :
    (∀ text : String,
      is_potential_table_header text =
        (!(pyStrip text == "") &&
          (header_keywords.any (fun k => strContainsSub (pyLower text) k) ||
            decide (tokenCount text ≤ 5 ∧ text.length > 5)))) ∧
    is_potential_table_header "Cash Flow Summary" = true ∧
    is_potential_table_header "Q1 Q2 Q3 Q4 Q5 Q6" = false ∧
    is_potential_table_header "" = false := by
  refine ⟨?_, by decide, by decide, by decide⟩
  intro text
  unfold is_potential_table_header
  cases hb : pyStrip text == "" with
  | true => simp
  | false =>
    cases hk : header_keywords.any (fun k => strContainsSub (pyLower text) k) with
    | true => simp
    | false =>
      by_cases hs : tokenCount text ≤ 5 ∧ text.length > 5
      · simp [hs]
      · simp [hs]

/-- C4: numeric coercion returns native numbers unchanged, treats absent
cells as non-coercible, strips every character of a text cell that is not a
digit, a dot or a minus sign, parses the non-empty remainder as a Python
float and otherwise reports non-coercible; in particular "12-3" strips to
"12-3", fails to parse, and is non-coercible. -/
theorem numeric_coercion_spec :
    (∀ q : ℚ, extract_numeric_value (Cell.num q) = some q) ∧
    extract_numeric_value Cell.absent = none ∧
    (∀ s : String, (stripNonNumeric s).toList
        = s.toList.filter (fun c => c.isDigit || c == '.' || c == '-')) ∧
    (∀ s : String, extract_numeric_value (Cell.text s) =
        (if stripNonNumeric s = "" then none
         else pyFloatOfCleaned (stripNonNumeric s))) ∧
    extract_numeric_value (Cell.text "12-3") = none := by
  refine ⟨fun q => rfl, rfl, fun s => rfl, ?_, by decide⟩
  intro s
  by_cases h : stripNonNumeric s = ""
  · simp [extract_numeric_value, h]
  · simp [extract_numeric_value, h]

/-- C6: `get_table_row_names` fails with the table-not-found error on a name
absent from the registry, and on a present name returns, in stored row order,
the trimmed first-cell strings of the data rows, skipping rows whose first
cell is absent or trims to the empty string. -/
theorem table_row_names_spec :
    ∀ (tables : Registry) (table_name : String),
      get_table_row_names tables table_name =
        (match lookupTable tables table_name with
         | none => Except.error (QueryError.tableNotFound table_name)
         | some t => Except.ok (t.filterMap rowLabel?)) := by
  intro tables table_name
  unfold get_table_row_names
  cases lookupTable tables table_name with
  | none => rfl
  | some t => simp [foldl_rowNamesStep]

/-- C3: `calculate_row_sum` targets the first data row whose non-absent first
cell trims to exactly the requested label, and returns the sum over the cells
after the label cell of each cell's coerced value, absent and non-coercible
cells contributing zero; on the spec's worked row the sum for
"Initial Investment" is 3015. -/
theorem row_sum_spec :
    (∀ (tables : Registry) (table_name row_name : String),
      calculate_row_sum tables table_name row_name =
        (match lookupTable tables table_name with
         | none => Except.error (QueryError.tableNotFound table_name)
         | some t =>
           match t.find? (rowMatchesLabel row_name) with
           | none => Except.error (QueryError.rowNotFound table_name row_name)
           | some r => Except.ok (((r.drop 1).map coerceOrZero).sum))) ∧
    calculate_row_sum exampleRegistry "CapBudg" "Initial Investment"
      = Except.ok 3015 := by
  constructor
  · intro tables table_name row_name
    cases hl : lookupTable tables table_name with
    | none => simp [calculate_row_sum, hl]
    | some t =>
      cases hf : t.find? (rowMatchesLabel row_name) with
      | none => simp [calculate_row_sum, hl, hf]
      | some r =>
        simp only [calculate_row_sum, hl, hf]
        rw [List.drop_one, foldl_sumCellValue, zero_add]
  · have e : calculate_row_sum exampleRegistry "CapBudg" "Initial Investment"
        = Except.ok ((0 : ℚ) + 1000 + ((2000 : ℕ) : ℚ) + ((15 : ℕ) : ℚ)) := rfl
    rw [e]
    norm_num

/-- C8: when the target row exists but no cell after the label cell coerces
to a number, `calculate_row_sum` returns exactly 0, not an error. -/
theorem row_sum_zero_when_none_coercible :
    ∀ (tables : Registry) (table_name row_name : String) (t : List Row) (r : Row),
      lookupTable tables table_name = some t →
      t.find? (rowMatchesLabel row_name) = some r →
      (∀ c ∈ r.tail, extract_numeric_value c = none) →
      calculate_row_sum tables table_name row_name = Except.ok 0 := by
  intro tables tn rn t r hl hf hall
  simp only [calculate_row_sum, hl, hf]
  congr 1
  rw [foldl_sumCellValue]
  have hz : ∀ x ∈ r.tail.map coerceOrZero, x = 0 := by
    intro x hx
    obtain ⟨c, hc, hxc⟩ := List.mem_map.mp hx
    rw [← hxc]
    unfold coerceOrZero
    rw [hall c hc]
    rfl
  rw [List.sum_eq_zero hz, add_zero]

/-- Witness for C8 at a concrete registry whose only row has no coercible
cell after its label. -/
theorem row_sum_zero_when_none_coercible_witness :
    calculate_row_sum noNumericRegistry "T2" "lbl" = Except.ok 0 :=
  row_sum_zero_when_none_coercible noNumericRegistry "T2" "lbl"
    [[Cell.text "lbl", Cell.text "abc", Cell.absent]]
    [Cell.text "lbl", Cell.text "abc", Cell.absent]
    (by decide) (by decide)
    (by intro c hc; fin_cases hc <;> rfl)

/-- C10: every label that `get_table_row_names` reports for a table is found
again by `calculate_row_sum` on that table: the sum query succeeds rather
than failing with the row-not-found error. -/
theorem labels_findable :
    ∀ (tables : Registry) (table_name : String) (labels : List String)
      (row_name : String),
      get_table_row_names tables table_name = Except.ok labels →
      row_name ∈ labels →
      ∃ q, calculate_row_sum tables table_name row_name = Except.ok q := by
  intro tables table_name labels row_name hok hmem
  unfold get_table_row_names at hok
  cases hl : lookupTable tables table_name with
  | none => rw [hl] at hok; cases hok
  | some t =>
    rw [hl] at hok
    injection hok with hlabels
    rw [foldl_rowNamesStep, List.nil_append] at hlabels
    rw [← hlabels] at hmem
    obtain ⟨r, hr, hsome⟩ := List.mem_filterMap.mp hmem
    have hmatch : rowMatchesLabel row_name r = true := by
      unfold rowLabel? at hsome
      by_cases hc : (cellNotna (r.headD Cell.absent)
          && (pyStrip (cellStr (r.headD Cell.absent)) != "")) = true
      · rw [if_pos hc] at hsome
        injection hsome with h2
        have hna : cellNotna (r.headD Cell.absent) = true :=
          ((Bool.and_eq_true _ _).mp hc).1
        show (cellNotna (r.headD Cell.absent)
            && (pyStrip (cellStr (r.headD Cell.absent)) == row_name)) = true
        rw [hna, h2, Bool.true_and]
        exact beq_self_eq_true row_name
      · rw [if_neg hc] at hsome
        cases hsome
    have hfind : (t.find? (rowMatchesLabel row_name)).isSome :=
      List.find?_isSome.mpr ⟨r, hr, hmatch⟩
    obtain ⟨r2, hr2⟩ := Option.isSome_iff_exists.mp hfind
    refine ⟨r2.tail.foldl sumCellValue 0, ?_⟩
    simp only [calculate_row_sum, hl, hr2]

/-- Witness for C10 at a one-table registry: the label "a" reported for
table "T" is summable. -/
theorem labels_findable_witness :
    ∃ q, calculate_row_sum witnessRegistry "T" "a" = Except.ok q :=
  labels_findable witnessRegistry "T" ["a"] "a" rfl (by decide)

/-- Counterexample to C7 as stated: after a failed load the global processor
is still assigned (main.py:197 runs before main.py:198 raises), with an empty
registry; listing tables then succeeds with an empty list, and table/row
queries fail with the NotFound error, not with the ServiceUnavailable
("processor not initialized") condition the claim requires. -/
theorem init_failure_counterexample :
    initProcessor (Except.error "file missing") = some { tables := [] } ∧
    get_table_details_endpoint (initProcessor (Except.error "file missing"))
        "Table1" = Except.error (QueryError.tableNotFound "Table1") ∧
    ¬ get_table_details_endpoint (initProcessor (Except.error "file missing"))
        "Table1" = Except.error QueryError.serviceUnavailable ∧
    row_sum_endpoint (initProcessor (Except.error "file missing")) "Table1"
        "Row1" = Except.error (QueryError.tableNotFound "Table1") ∧
    list_tables_endpoint (initProcessor (Except.error "file missing"))
        = Except.ok [] := by
  refine ⟨rfl, rfl, ?_, rfl, rfl⟩
  intro h
  exact absurd (Except.error.inj h) (by decide)

/-- C7 as amended: a load failure leaves the registry empty, but because the
processor global is assigned before the load runs, subsequent queries do not
see an uninitialized processor: listing tables succeeds with an empty list
and table-details/row-sum queries fail with NotFound; the ServiceUnavailable
condition arises only when initialization never ran at all. -/
theorem init_failure_behavior :
    ∀ e : String,
      initProcessor (Except.error e) = some { tables := [] } ∧
      (∀ table_name, get_table_details_endpoint (initProcessor (Except.error e))
          table_name = Except.error (QueryError.tableNotFound table_name)) ∧
      (∀ table_name row_name, row_sum_endpoint (initProcessor (Except.error e))
          table_name row_name
          = Except.error (QueryError.tableNotFound table_name)) ∧
      list_tables_endpoint (initProcessor (Except.error e)) = Except.ok [] ∧
      (∀ table_name, get_table_details_endpoint none table_name
          = Except.error QueryError.serviceUnavailable) :=
  fun _ => ⟨rfl, fun _ => rfl, fun _ _ => rfl, rfl, fun _ => rfl⟩

lemma header_pyStrip_ne {t : String} (h : is_potential_table_header t = true) :
    pyStrip t ≠ "" := by
  intro he
  unfold is_potential_table_header at h
  rw [he] at h
  simp at h

lemma commitCurrent_eq_specCommit (nm : Option String) (acc : List Row)
    (res : Registry) (h : ∀ n, nm = some n → n ≠ "") :
    commitCurrent nm acc res = specCommit nm acc res := by
  cases nm with
  | none => rfl
  | some n =>
    have hn : (n != "") = true := by simp [h n rfl]
    simp [commitCurrent, specCommit, hn]

lemma nameTruthy_eq_isSome (nm : Option String)
    (h : ∀ n, nm = some n → n ≠ "") : nameTruthy nm = nm.isSome := by
  cases nm with
  | none => rfl
  | some n =>
    have hn : (n != "") = true := by simp [h n rfl]
    simp [nameTruthy, hn]

lemma scan_eq_specScan : ∀ (rows : List Row) (nm : Option String)
    (acc : List Row) (res : Registry), (∀ n, nm = some n → n ≠ "") →
    extract_scan rows nm acc res = specScan rows nm acc res := by
  intro rows
  induction rows with
  | nil =>
    intro nm acc res h
    simp only [extract_scan, specScan]
    exact commitCurrent_eq_specCommit nm acc res h
  | cons r rs ih =>
    intro nm acc res h
    simp only [extract_scan, specScan]
    rw [nameTruthy_eq_isSome nm h, commitCurrent_eq_specCommit nm acc res h]
    by_cases hh : is_potential_table_header (renderRow r) = true
    · rw [if_pos hh, if_pos hh]
      refine ih _ _ _ ?_
      intro n hn
      injection hn with hn2
      rw [← hn2]
      exact header_pyStrip_ne hh
    · rw [if_neg hh, if_neg hh]
      by_cases hc : (Option.isSome nm && !rowAllAbsent r) = true
      · rw [if_pos hc, if_pos hc]
        exact ih _ _ _ h
      · rw [if_neg hc, if_neg hc]
        exact ih _ _ _ h

lemma mem_dictInsert {t : String × List Row} {k : String} {v : List Row}
    {d : Registry} (h : t ∈ dictInsert k v d) : t ∈ d ∨ t = (k, v) := by
  unfold dictInsert at h
  by_cases ha : d.any (fun p => p.1 == k) = true
  · rw [if_pos ha] at h
    obtain ⟨p, hp, hpt⟩ := List.mem_map.mp h
    by_cases hk : (p.1 == k) = true
    · rw [if_pos hk] at hpt
      right
      exact hpt.symm
    · rw [if_neg hk] at hpt
      left
      rw [← hpt]
      exact hp
  · rw [if_neg ha] at h
    rcases List.mem_append.mp h with h1 | h2
    · left; exact h1
    · right; simpa using h2

lemma mem_commitCurrent {t : String × List Row} {nm : Option String}
    {acc : List Row} {res : Registry} (h : t ∈ commitCurrent nm acc res) :
    t ∈ res ∨ t.2 = acc := by
  cases nm with
  | none => exact Or.inl h
  | some n =>
    simp only [commitCurrent] at h
    by_cases hc : ((n != "") && !acc.isEmpty) = true
    · rw [if_pos hc] at h
      rcases mem_dictInsert h with h1 | h2
      · exact Or.inl h1
      · right; rw [h2]
    · rw [if_neg hc] at h
      exact Or.inl h

lemma mem_commitCurrent_name {t : String × List Row} {nm : Option String}
    {acc : List Row} {res : Registry} (h : t ∈ commitCurrent nm acc res) :
    t ∈ res ∨ nm = some t.1 := by
  cases nm with
  | none => exact Or.inl h
  | some n =>
    simp only [commitCurrent] at h
    by_cases hc : ((n != "") && !acc.isEmpty) = true
    · rw [if_pos hc] at h
      rcases mem_dictInsert h with h1 | h2
      · exact Or.inl h1
      · right; rw [h2]
    · rw [if_neg hc] at h
      exact Or.inl h

lemma scan_rows_provenance : ∀ (rows : List Row) (nm : Option String)
    (acc : List Row) (res : Registry) (t : String × List Row),
    t ∈ extract_scan rows nm acc res → ∀ r ∈ t.2,
    (∃ t2 ∈ res, r ∈ t2.2) ∨ r ∈ acc ∨
    (nameTruthy nm = true ∧ rowAllAbsent r = false ∧ r ∈ rows) ∨
    (rowAllAbsent r = false ∧ ∃ p h m q, rows = p ++ h :: (m ++ r :: q) ∧
      is_potential_table_header (renderRow h) = true) := by
  intro rows
  induction rows with
  | nil =>
    intro nm acc res t ht r hr
    simp only [extract_scan] at ht
    rcases mem_commitCurrent ht with h1 | h2
    · exact Or.inl ⟨t, h1, hr⟩
    · right; left; rw [← h2]; exact hr
  | cons x rs ih =>
    intro nm acc res t ht r hr
    simp only [extract_scan] at ht
    by_cases hh : is_potential_table_header (renderRow x) = true
    · rw [if_pos hh] at ht
      rcases ih _ _ _ _ ht r hr with h1 | h2 | h3 | h4
      · obtain ⟨t2, ht2, hrt2⟩ := h1
        rcases mem_commitCurrent ht2 with ha | hb
        · exact Or.inl ⟨t2, ha, hrt2⟩
        · right; left; rw [← hb]; exact hrt2
      · cases h2
      · obtain ⟨-, habs, hmem⟩ := h3
        right; right; right
        refine ⟨habs, ?_⟩
        obtain ⟨s1, s2, hsplit⟩ := List.append_of_mem hmem
        exact ⟨[], x, s1, s2, by simp [hsplit], hh⟩
      · obtain ⟨habs, p, h0, m, q, hsplit, hhdr⟩ := h4
        right; right; right
        exact ⟨habs, x :: p, h0, m, q, by simp [hsplit], hhdr⟩
    · rw [if_neg hh] at ht
      by_cases hc : (nameTruthy nm && !rowAllAbsent x) = true
      · rw [if_pos hc] at ht
        rcases ih _ _ _ _ ht r hr with h1 | h2 | h3 | h4
        · exact Or.inl h1
        · rcases List.mem_append.mp h2 with ha | hb
          · exact Or.inr (Or.inl ha)
          · have hrx : r = x := by simpa using hb
            right; right; left
            refine ⟨((Bool.and_eq_true _ _).mp hc).1, ?_, ?_⟩
            · rw [hrx]
              have h5 := ((Bool.and_eq_true _ _).mp hc).2
              simpa using h5
            · rw [hrx]
              exact List.mem_cons_self x rs
        · obtain ⟨hn, habs, hmem⟩ := h3
          exact Or.inr (Or.inr (Or.inl
            ⟨hn, habs, List.mem_cons_of_mem x hmem⟩))
        · obtain ⟨habs, p, h0, m, q, hsplit, hhdr⟩ := h4
          exact Or.inr (Or.inr (Or.inr
            ⟨habs, x :: p, h0, m, q, by simp [hsplit], hhdr⟩))
      · rw [if_neg hc] at ht
        rcases ih _ _ _ _ ht r hr with h1 | h2 | h3 | h4
        · exact Or.inl h1
        · exact Or.inr (Or.inl h2)
        · obtain ⟨hn, habs, hmem⟩ := h3
          exact Or.inr (Or.inr (Or.inl
            ⟨hn, habs, List.mem_cons_of_mem x hmem⟩))
        · obtain ⟨habs, p, h0, m, q, hsplit, hhdr⟩ := h4
          exact Or.inr (Or.inr (Or.inr
            ⟨habs, x :: p, h0, m, q, by simp [hsplit], hhdr⟩))

lemma scan_names_provenance : ∀ (rows : List Row) (nm : Option String)
    (acc : List Row) (res : Registry) (t : String × List Row),
    t ∈ extract_scan rows nm acc res →
    (∃ t2 ∈ res, t.1 = t2.1) ∨ nm = some t.1 ∨
    (∃ r ∈ rows, is_potential_table_header (renderRow r) = true ∧
      t.1 = pyStrip (renderRow r)) := by
  intro rows
  induction rows with
  | nil =>
    intro nm acc res t ht
    simp only [extract_scan] at ht
    rcases mem_commitCurrent_name ht with h1 | h2
    · exact Or.inl ⟨t, h1, rfl⟩
    · exact Or.inr (Or.inl h2)
  | cons x rs ih =>
    intro nm acc res t ht
    simp only [extract_scan] at ht
    by_cases hh : is_potential_table_header (renderRow x) = true
    · rw [if_pos hh] at ht
      rcases ih _ _ _ _ ht with h1 | h2 | h3
      · obtain ⟨t2, ht2, heq⟩ := h1
        rcases mem_commitCurrent_name ht2 with ha | hb
        · exact Or.inl ⟨t2, ha, heq⟩
        · right; left; rw [heq]; exact hb
      · right; right
        refine ⟨x, List.mem_cons_self x rs, hh, ?_⟩
        injection h2 with h2'
        exact h2'.symm
      · obtain ⟨r, hr, hhd, hn⟩ := h3
        exact Or.inr (Or.inr ⟨r, List.mem_cons_of_mem x hr, hhd, hn⟩)
    · rw [if_neg hh] at ht
      by_cases hc : (nameTruthy nm && !rowAllAbsent x) = true
      · rw [if_pos hc] at ht
        rcases ih _ _ _ _ ht with h1 | h2 | h3
        · exact Or.inl h1
        · exact Or.inr (Or.inl h2)
        · obtain ⟨r, hr, hhd, hn⟩ := h3
          exact Or.inr (Or.inr ⟨r, List.mem_cons_of_mem x hr, hhd, hn⟩)
      · rw [if_neg hc] at ht
        rcases ih _ _ _ _ ht with h1 | h2 | h3
        · exact Or.inl h1
        · exact Or.inr (Or.inl h2)
        · obtain ⟨r, hr, hhd, hn⟩ := h3
          exact Or.inr (Or.inr ⟨r, List.mem_cons_of_mem x hr, hhd, hn⟩)

lemma scan_stays_empty : ∀ (rows : List Row) (acc : List Row) (res : Registry),
    (∀ r ∈ rows, is_potential_table_header (renderRow r) = false) →
    extract_scan rows none acc res = res := by
  intro rows
  induction rows with
  | nil => intro acc res h; rfl
  | cons x rs ih =>
    intro acc res h
    have hx : is_potential_table_header (renderRow x) = false :=
      h x (List.mem_cons_self x rs)
    simp only [extract_scan]
    rw [if_neg (by simp [hx]), if_neg (by simp [nameTruthy])]
    exact ih acc res (fun r hr => h r (List.mem_cons_of_mem x hr))

lemma append_data_ne (s : String) : s ++ "_data" ≠ "" := by
  intro h
  have h2 : s.length + ("_data" : String).length = ("" : String).length := by
    rw [← String.length_append, h]
  rw [show ("_data" : String).length = 5 from rfl,
      show ("" : String).length = 0 from rfl] at h2
  omega

/-- C1: the segmenter scan agrees with the spec's single top-to-bottom pass
(commit only when a name is set and rows have accumulated, colliding names
overwrite, new name is the trimmed rendered row with the accumulator reset,
non-header rows appended unmodified only when a name is set and the row is
not entirely absent, final commit under the same conditions); moreover every
row stored in any committed table is not entirely absent and occurs in the
grid strictly after some header-candidate row. -/
theorem segmenter_scan_spec :
    ∀ grid : List Row,
      extract_scan grid none [] [] = specScan grid none [] [] ∧
      ∀ t ∈ extract_scan grid none [] [], ∀ r ∈ t.2,
        rowAllAbsent r = false ∧
        ∃ p h m q, grid = p ++ h :: (m ++ r :: q) ∧
          is_potential_table_header (renderRow h) = true := by
  intro grid
  constructor
  · exact scan_eq_specScan grid none [] [] (fun n hn => by cases hn)
  · intro t ht r hr
    rcases scan_rows_provenance grid none [] [] t ht r hr with h1 | h2 | h3 | h4
    · obtain ⟨t2, ht2, -⟩ := h1
      cases ht2
    · cases h2
    · exact absurd h3.1 (by simp [nameTruthy])
    · exact h4

/-- A two-row grid whose first row is a keyword header. -/
def c1Grid : List Row := [[Cell.text "Operating Costs"], [Cell.text "row1"]]

/-- Witness for C1 at a concrete grid: the committed data row is not entirely
absent and sits after the header-candidate row that named its table. -/
theorem segmenter_scan_spec_witness :
    rowAllAbsent [Cell.text "row1"] = false ∧
    ∃ p h m q, c1Grid = p ++ h :: (m ++ [Cell.text "row1"] :: q) ∧
      is_potential_table_header (renderRow h) = true :=
  (segmenter_scan_spec c1Grid).2 ("Operating Costs", [[Cell.text "row1"]])
    (by decide) [Cell.text "row1"] (by decide)

/-- Counterexample to C5 as stated: a grid whose only row is entirely absent
has zero header-candidate rows, yet the segmenter produces no table at all
(main.py:93 guards the fallback on the filtered grid being non-empty), not
exactly one table. -/
theorem no_header_all_absent_counterexample :
    (∀ r ∈ ([[Cell.absent]] : List Row),
      is_potential_table_header (renderRow r) = false) ∧
    extract_tables_from_sheet [[Cell.absent]] "Sheet1" = [] ∧
    (extract_tables_from_sheet [[Cell.absent]] "Sheet1").length ≠ 1 :=
  ⟨by decide, by decide, by decide⟩

/-- C5 as amended: on a grid with zero header-candidate rows the segmenter
produces exactly one table named `{sheetName}_data` holding the grid's
not-entirely-absent rows in original order with no header stripped — provided
at least one such row exists; when every row is entirely absent (or the grid
is empty) it produces no tables. -/
theorem segmenter_no_header_fallback :
    ∀ (grid : List Row) (sheet_name : String),
      (∀ r ∈ grid, is_potential_table_header (renderRow r) = false) →
      extract_tables_from_sheet grid sheet_name =
        (if (grid.filter (fun r => !rowAllAbsent r)).isEmpty then []
         else [(sheet_name ++ "_data",
                grid.filter (fun r => !rowAllAbsent r))]) := by
  intro grid sheet_name h
  simp only [extract_tables_from_sheet]
  rw [scan_stays_empty grid [] [] h]
  by_cases he : (grid.filter (fun r => !rowAllAbsent r)).isEmpty = true
  · simp [he]
  · simp [he]

/-- Witness for C5 at a one-row grid without header candidates. -/
theorem segmenter_no_header_fallback_witness :
    extract_tables_from_sheet [[Cell.text "ab"]] "S" =
      (if (([[Cell.text "ab"]] : List Row).filter
            (fun r => !rowAllAbsent r)).isEmpty then []
       else [("S" ++ "_data",
              ([[Cell.text "ab"]] : List Row).filter
                (fun r => !rowAllAbsent r))]) :=
  segmenter_no_header_fallback [[Cell.text "ab"]] "S" (by decide)

/-- C9: every table the segmenter registers has a non-empty name, and that
name is either the sheet's fallback name `{sheetName}_data` or the trimmed
rendering of a grid row that the header predicate accepted. -/
theorem table_names_nonempty :
    ∀ (grid : List Row) (sheet_name : String) (t : String × List Row),
      t ∈ extract_tables_from_sheet grid sheet_name →
      t.1 ≠ "" ∧
      (t.1 = sheet_name ++ "_data" ∨
        ∃ r ∈ grid, is_potential_table_header (renderRow r) = true ∧
          t.1 = pyStrip (renderRow r)) := by
  intro grid sheet_name t ht
  simp only [extract_tables_from_sheet] at ht
  by_cases hs : (extract_scan grid none [] []).isEmpty = true
  · rw [if_pos hs] at ht
    by_cases hne : (!(grid.filter (fun r => !rowAllAbsent r)).isEmpty) = true
    · rw [if_pos hne] at ht
      have hteq : t = (sheet_name ++ "_data",
          grid.filter (fun r => !rowAllAbsent r)) := by simpa using ht
      constructor
      · rw [hteq]
        exact append_data_ne sheet_name
      · left
        rw [hteq]
    · rw [if_neg hne] at ht
      cases ht
  · rw [if_neg hs] at ht
    rcases scan_names_provenance grid none [] [] t ht with h1 | h2 | h3
    · obtain ⟨t2, ht2, -⟩ := h1
      cases ht2
    · cases h2
    · obtain ⟨r, hr, hhd, hn⟩ := h3
      constructor
      · rw [hn]
        exact header_pyStrip_ne hhd
      · right
        exact ⟨r, hr, hhd, hn⟩

/-- A grid whose header row carries the keyword "budget". -/
def c9Grid : List Row := [[Cell.text "Budget 2024"], [Cell.text "x"]]

/-- Witness for C9 at a concrete grid: the registered table's name is
non-empty and is the trimmed rendering of the accepted header row. -/
theorem table_names_nonempty_witness :
    ("Budget 2024" : String) ≠ "" ∧
    ("Budget 2024" = "S" ++ "_data" ∨
      ∃ r ∈ c9Grid, is_potential_table_header (renderRow r) = true ∧
        "Budget 2024" = pyStrip (renderRow r)) :=
  table_names_nonempty c9Grid "S" ("Budget 2024", [[Cell.text "x"]]) (by decide)
